import Mathlib

/-!
Verification of the Moneybots API logging subsystem against its source.

The repository packs two revisions of the logging code: an older gorm-based
revision and the bun-based revision that is wired to the `DBLogger` query
hook (`internal/repository/db_connection.go` installs `NewDBLogger` on the
bun connection).  The bun revision is the coherent program and is what this
development embeds.  Where the two revisions differ (the gorm `DBWriter.Write`
stores the raw input buffer in the `data` column, while the bun revision
deletes the `time` key and re-marshals), the bun revision is modelled.

Modelling conventions:
- JSON documents are modelled by the inductive `JVal`; a parsed
  `map[string]interface{}` is an association list `Event`.  JSON numbers are
  modelled as `Int` (no claim under verification depends on float formatting).
- A raw byte buffer handed to `DBWriter.Write` is modelled by its length and
  its `json.Unmarshal` result (`Buffer`).  `json.Marshal` of a value that was
  itself produced by `json.Unmarshal` cannot fail in Go, so marshalling is
  modelled as total, and the `jsonb` column is modelled by the structured
  document it stores (marshal/parse round-trip absorbed).
- Wall-clock instants are modelled as `Nat` seconds; the local calendar is a
  fixed-offset one, with local midnights at multiples of 86400 seconds.
- Whether a database insert succeeds is an environmental input (`insertOk`).
-/

set_option autoImplicit false

namespace Moneybots

/-- JSON values, as produced by Go's `json.Unmarshal` into `interface{}`.
Numbers are modelled as `Int`. -/
inductive JVal where
  | null : JVal
  | bool (b : Bool) : JVal
  | num (n : Int) : JVal
  | str (s : String) : JVal
  | arr (xs : List JVal) : JVal
  | obj (fields : List (String × JVal)) : JVal

/-- A parsed log event: Go's `map[string]interface{}`.  Keys of a map produced
by `json.Unmarshal` are distinct. -/
abbrev Event := List (String × JVal)

/-- Go map indexing `event[k]`: `none` models the absent-key case (a `nil`
`interface{}` value in Go). -/
def Event.get (e : Event) (k : String) : Option JVal :=
  (e.find? (fun kv => kv.1 == k)).map (fun kv => kv.2)

/-- Go `delete(event, k)`. -/
def Event.erase (e : Event) (k : String) : Event :=
  e.filter (fun kv => kv.1 != k)

mutual
/-- Go `fmt.Sprintf("%v", v)` on a value produced by `json.Unmarshal`.
Composite-value rendering is schematic (Go sorts map keys when printing; no
claim under verification renders composite values). -/
def JVal.render : JVal → String
  | .null => "<nil>"
  | .bool b => if b then "true" else "false"
  | .num n => toString n
  | .str s => s
  | .arr xs => "[" ++ JVal.renderList xs ++ "]"
  | .obj kvs => "map[" ++ JVal.renderFields kvs ++ "]"

def JVal.renderList : List JVal → String
  | [] => ""
  | [x] => JVal.render x
  | x :: y :: xs => JVal.render x ++ " " ++ JVal.renderList (y :: xs)

def JVal.renderFields : List (String × JVal) → String
  | [] => ""
  | [kv] => kv.1 ++ ":" ++ JVal.render kv.2
  | kv :: kv2 :: kvs => kv.1 ++ ":" ++ JVal.render kv.2 ++ " " ++ JVal.renderFields (kv2 :: kvs)
end

/-- Go `fmt.Sprintf("%v", event[k])`: an absent key holds a `nil` interface
value, which `%v` renders as the placeholder `<nil>`. -/
def fmtV : Option JVal → String
  | none => "<nil>"
  | some v => v.render

/-- A raw serialized event buffer, modelled by its byte length and its
`json.Unmarshal` outcome. -/
structure Buffer where
  len : Nat
  parse : Option Event

/-- One row of the `logs` table (`APILog` in the source; the auto-increment
`id` column is assigned by the database and not modelled).  All columns are
declared `notnull` in the source model; a Go `string` / `time.Time` is never
null, which the Lean types reflect. -/
structure APILog where
  timestamp : Nat
  level : String
  message : String
  module : String
  data : Event

/-- Errors `DBWriter.Write` can return. -/
inductive WriteErr where
  | parseErr : WriteErr
  | insertErr : WriteErr
deriving DecidableEq

/-- Observable outcome of one `DBWriter.Write` call: the returned byte count
and error, the row persisted (if any), whether a database insert was
attempted, and whether a diagnostic line was written to stderr. -/
structure WriteOutcome where
  n : Nat
  err : Option WriteErr
  persisted : Option APILog
  dbAttempted : Bool
  stderrDiag : Bool

/-- `DBWriter.Write` (bun revision, `src/unnamed/part_002` lines 45-87):
parse the buffer, extract `level`/`message` via `%v` coercion and `module`
via a string type assertion, delete the `time` key, stamp with the current
time, and insert one row.  `now` is the wall clock at the call;
`insertOk` tells whether the database insert succeeds. -/
def DBWriter.Write (now : Nat) (insertOk : Bool) (p : Buffer) : WriteOutcome :=
  match p.parse with
  | none => ⟨0, some WriteErr.parseErr, none, false, false⟩
  | some event =>
    let level := fmtV (event.get "level")
    let msg := fmtV (event.get "message")
    let module := match event.get "module" with
      | some (JVal.str m) => m
      | _ => ""
    let event2 := event.erase "time"
    let entry : APILog := ⟨now, level, msg, module, event2⟩
    if insertOk then ⟨p.len, none, some entry, true, false⟩
    else ⟨0, some WriteErr.insertErr, none, true, true⟩

/-! ### Database query hook (`DBLogger`, `db_connection.go`)

String operations from the Go standard library are modelled on `List Char`
for executability.  `unicode`-aware case mapping and space classification are
modelled at ASCII precision (SQL statements and the configured verbosity
values are ASCII). -/

/-- Go `unicode.IsSpace`, at ASCII precision. -/
def goIsSpace (c : Char) : Bool :=
  c == ' ' || c == '\t' || c == '\n' || c == '\x0b' || c == '\x0c' || c == '\r'

/-- Character-list version of Go `strings.HasPrefix`. -/
def isPrefixL : List Char → List Char → Bool
  | [], _ => true
  | _ :: _, [] => false
  | a :: xs, b :: ys => a == b && isPrefixL xs ys

/-- Whether `pat` occurs as a contiguous run inside `s`. -/
def hasSub : List Char → List Char → Bool
  | [], pat => isPrefixL pat []
  | c :: rest, pat => isPrefixL pat (c :: rest) || hasSub rest pat

/-- Go `strings.Contains`. -/
def strContains (s pat : String) : Bool :=
  hasSub s.data pat.data

/-- Go `strings.ToUpper`, at ASCII precision. -/
def goUpper (cs : List Char) : List Char := cs.map Char.toUpper

/-- Go `strings.ToLower` on a `String`, at ASCII precision. -/
def goLowerStr (s : String) : String := String.mk (s.data.map Char.toLower)

/-- Go `strings.TrimSpace`. -/
def goTrimSpace (cs : List Char) : List Char :=
  ((cs.dropWhile goIsSpace).reverse.dropWhile goIsSpace).reverse

/-- Accumulator pass of Go `strings.Fields`: `cur` holds the reversed chars of
the word currently being read. -/
def goFieldsAux : List Char → List Char → List (List Char)
  | [], cur => if cur = [] then [] else [cur.reverse]
  | c :: rest, cur =>
    if goIsSpace c then
      if cur = [] then goFieldsAux rest [] else cur.reverse :: goFieldsAux rest []
    else goFieldsAux rest (c :: cur)

/-- Go `strings.Fields`: the maximal whitespace-free runs of the input. -/
def goFields (cs : List Char) : List (List Char) := goFieldsAux cs []

/-- Go `strings.Join(words, " ")`. -/
def joinWords : List (List Char) → List Char
  | [] => []
  | [w] => w
  | w :: w2 :: ws => w ++ ' ' :: joinWords (w2 :: ws)

/-- Replacement pass of Go `regexp.MustCompile("\x22([^\x22]+)\x22").ReplaceAllString(q, "$1")`:
each leftmost double-quote pair enclosing one or more non-quote characters is
replaced by its contents.  The scan is a state machine: `acc = some inner`
means a quote has been opened and `inner` read since (in order).  A quote
immediately followed by a quote cannot start a match (the class requires at
least one character), so the opener is emitted and the scan restarts at the
second quote; an unclosed opener is emitted verbatim at the end. -/
def dropQuotedAux : List Char → Option (List Char) → List Char
  | [], none => []
  | [], some acc => '"' :: acc
  | c :: rest, none =>
    if c = '"' then dropQuotedAux rest (some [])
    else c :: dropQuotedAux rest none
  | c :: rest, some acc =>
    if c = '"' then
      if acc = [] then '"' :: dropQuotedAux rest (some [])
      else acc ++ dropQuotedAux rest none
    else dropQuotedAux rest (some (acc ++ [c]))

/-- The regex replacement of `cleanQueryString`. -/
def dropQuoted (cs : List Char) : List Char := dropQuotedAux cs none

/-- `cleanQueryString` (`db_connection.go`): unquote quoted segments, then
`strings.Join(strings.Fields(query), " ")`. -/
def cleanQueryString (query : String) : String :=
  String.mk (joinWords (goFields (dropQuoted query.data)))

/-- Keyword list of `getOperationType`, in source order. -/
def sqlKeywords : List String :=
  ["SELECT", "INSERT", "UPDATE", "DELETE", "CREATE", "ALTER", "DROP", "SET"]

/-- `getOperationType` (`db_connection.go`): upper-case and trim the query,
return the first keyword it starts with, else `"UNKNOWN"`. -/
def getOperationType (query : String) : String :=
  let q := goTrimSpace (goUpper query.data)
  match sqlKeywords.find? (fun op => isPrefixL op.data q) with
  | some op => op
  | none => "UNKNOWN"

/-- `isSchemaOperation` (`db_connection.go`): membership in the
`CREATE`/`ALTER`/`DROP` map (a missing key reads as `false`). -/
def isSchemaOperation (operation : String) : Bool :=
  operation == "CREATE" || operation == "ALTER" || operation == "DROP"

/-- The query hook's state: the configured verbosity. -/
structure DBLogger where
  logLevel : String

/-- `NewDBLogger` (`db_connection.go`): stores the lower-cased configured
level. -/
def NewDBLogger (level : String) : DBLogger := ⟨goLowerStr level⟩

/-- One observed database call handed to `AfterQuery`: the SQL text, the
elapsed time in whole milliseconds (Go computes
`float64(time.Since(startTime).Milliseconds())`; the truncated
millisecond count is taken as the model's input), and whether the call ended
with an error. -/
structure QueryEvent where
  query : String
  durationMs : Int
  err : Bool

/-- A log entry emitted by the hook: its severity, the operation tag, the
duration field, and the statement text when the entry carries one
(error- and debug-level entries do; info-level entries log no query text). -/
structure LoggedEntry where
  level : String
  operation : String
  durationMs : Int
  query : Option String

/-- `DBLogger.AfterQuery` (`db_connection.go` lines 213-253): skip statements
mentioning the quoted `logs` table; always log errors at error level;
otherwise log at debug verbosity unconditionally, at info verbosity only for
schema operations or calls slower than 100 ms, and at any other verbosity not
at all.  Returns the emitted entry, if any. -/
def afterQuery (h : DBLogger) (ev : QueryEvent) : Option LoggedEntry :=
  if strContains ev.query "\"logs\"" then none
  else
    let operation := getOperationType ev.query
    let cleanQuery := cleanQueryString ev.query
    if ev.err then some ⟨"error", operation, ev.durationMs, some cleanQuery⟩
    else if h.logLevel = "debug" then
      some ⟨"debug", operation, ev.durationMs, some cleanQuery⟩
    else if h.logLevel = "info" then
      if isSchemaOperation operation || ev.durationMs > 100 then
        some ⟨"info", operation, ev.durationMs, none⟩
      else none
    else none

/-! ### Spec-side characterizations used for the C7 comparison -/

/-- Spec reading of C7's text clause, first half: "the original statement
with double-quote characters stripped". -/
def stripQuotesSpec (cs : List Char) : List Char :=
  cs.filter (fun c => c != '"')

/-- Accumulator pass of `collapseSpacesSpec`; the flag records whether the
scan is inside a whitespace run. -/
def collapseAux : List Char → Bool → List Char
  | [], _ => []
  | c :: rest, inRun =>
    if goIsSpace c then
      if inRun then collapseAux rest true else ' ' :: collapseAux rest true
    else c :: collapseAux rest false

/-- Spec reading of C7's text clause, second half: "runs of whitespace
collapsed to single spaces" (each maximal whitespace run becomes one space,
wherever it sits). -/
def collapseSpacesSpec (cs : List Char) : List Char :=
  collapseAux cs false

/-- Whether no two adjacent characters are both whitespace. -/
def noTwoSpaces : List Char → Bool
  | [] => true
  | [_] => true
  | a :: b :: rest => !(goIsSpace a && goIsSpace b) && noTwoSpaces (b :: rest)

/-- Whether the first character, if any, is not whitespace. -/
def headNotSpace : List Char → Bool
  | [] => true
  | c :: _ => !goIsSpace c

/-! ### Daily log file naming and rotation (`getDailyLogFile`, `rotateLogDaily`) -/

/-- A local calendar date as Go's `time.Time` components render it. -/
structure GoDate where
  year : Nat
  month : Nat
  day : Nat
deriving DecidableEq

/-- Last four decimal digits of `y`, as Go's `Format("2006")` prints a year
in `[0, 9999]` (zero-padded to four digits). -/
def year4 (y : Nat) : List Char :=
  [Nat.digitChar (y / 1000 % 10), Nat.digitChar (y / 100 % 10),
   Nat.digitChar (y / 10 % 10), Nat.digitChar (y % 10)]

/-- Two zero-padded decimal digits, as Go's `Format("01")` / `Format("02")`
print a month or day. -/
def num2 (n : Nat) : List Char :=
  [Nat.digitChar (n / 10 % 10), Nat.digitChar (n % 10)]

/-- Go `time.Format("2006-01-02")`. -/
def dateStamp (d : GoDate) : List Char :=
  year4 d.year ++ '-' :: num2 d.month ++ '-' :: num2 d.day

/-- The file name built by `getDailyLogFile`:
`fmt.Sprintf("moneybotsapi-%s.log", time.Now().Format("2006-01-02"))`. -/
def logFileName (d : GoDate) : String :=
  String.mk ("moneybotsapi-".data ++ dateStamp d ++ ".log".data)

/-- `getLogDirectory`: the fixed production path, else the relative
development path, keyed on the `MB_API_ENV` environment value. -/
def getLogDirectory (env : String) : String :=
  if env = "production" then "/var/log/moneybotsapi" else "_logs"

/-- The full path opened by `getDailyLogFile` (`filepath.Join` of the
directory and the daily name). -/
def dailyLogFilePath (env : String) (d : GoDate) : String :=
  getLogDirectory env ++ "/" ++ logFileName d

/-- Seconds per calendar day; the model's local calendar has a fixed UTC
offset, so local midnights are the multiples of `secPerDay` (after folding
the offset into the epoch). -/
def secPerDay : Nat := 86400

/-- The sleep computed by one cycle of `rotateLogDaily`:
`next := now.Add(24h)` truncated to midnight of its day
(`time.Date(next.Year(), next.Month(), next.Day(), 0, 0, 0, 0, ...)`),
minus `now`. -/
def rotateSleep (t : Nat) : Nat :=
  let next := t + secPerDay
  let nextMidnight := next - next % secPerDay
  nextMidnight - t

/-- Instants at which successive `rotateLogDaily` cycles wake and rotate:
the loop sleeps `rotateSleep`, rotates, and repeats with no exit. -/
def rotateClock (t0 : Nat) : Nat → Nat
  | 0 => t0
  | n + 1 => rotateClock t0 n + rotateSleep (rotateClock t0 n)

/-! ### Concrete inputs used by witnesses and counterexamples -/

/-- Concrete buffer used by the C1 witness. -/
def bufC1 : Buffer :=
  ⟨42, some [("level", JVal.str "error"), ("time", JVal.str "2024-01-15T10:00:00Z"),
             ("message", JVal.str "boom")]⟩

/-- Row the sink persists for `bufC1`. -/
def rowC1 : APILog :=
  ⟨7, "error", "boom", "", [("level", JVal.str "error"), ("message", JVal.str "boom")]⟩

/-- Unparsable buffer used by the C5 witness. -/
def bufBad : Buffer := ⟨5, none⟩

/-- Parsable buffer used by the C5 witness. -/
def bufGood : Buffer := ⟨17, some [("level", JVal.str "info"), ("message", JVal.str "ok")]⟩

/-- Buffer used by the C6 witness: the `module` field is present but
non-text, and the `level` field is absent. -/
def bufC6 : Buffer := ⟨23, some [("message", JVal.str "hi"), ("module", JVal.num 3)]⟩

/-- Row the sink persists for `bufC6`. -/
def rowC6 : APILog :=
  ⟨9, "<nil>", "hi", "", [("message", JVal.str "hi"), ("module", JVal.num 3)]⟩

end Moneybots

namespace Moneybots

/-- C1: for every buffer the persistent sink successfully persists, the
stored `data` document equals the original parsed event minus its `time`
field, and the row's timestamp, level and message carry the (non-null)
extracted values. -/
theorem c1_persisted_data_roundtrip (now : Nat) (insertOk : Bool) (p : Buffer)
    (row : APILog) (h : (DBWriter.Write now insertOk p).persisted = some row) :
    ∃ ev, p.parse = some ev ∧
      row.data = Event.erase ev "time" ∧
      row.timestamp = now ∧
      row.level = fmtV (Event.get ev "level") ∧
      row.message = fmtV (Event.get ev "message") := by
  unfold DBWriter.Write at h
  cases hp : p.parse with
  | none => rw [hp] at h; simp at h
  | some ev =>
    rw [hp] at h
    cases insertOk with
    | false => simp at h
    | true =>
      simp at h
      exact ⟨ev, rfl, by rw [← h], by rw [← h], by rw [← h], by rw [← h]⟩

theorem c1_persisted_data_roundtrip_witness :
    (DBWriter.Write 7 true bufC1).persisted = some rowC1 ∧
    (∃ ev, bufC1.parse = some ev ∧
      rowC1.data = Event.erase ev "time" ∧
      rowC1.timestamp = 7 ∧
      rowC1.level = fmtV (Event.get ev "level") ∧
      rowC1.message = fmtV (Event.get ev "message")) :=
  ⟨rfl, c1_persisted_data_roundtrip 7 true bufC1 rowC1 rfl⟩

/-- C2 counterexample: an errored insert into the quoted `logs` table is an
observed database call that ended with an error, yet `AfterQuery` emits
nothing (the logs-table exclusion is checked before the error branch), at
`"debug"` verbosity as much as any other. -/
theorem c2_error_always_logged_counterexample :
    (⟨"INSERT INTO \"logs\" (\"timestamp\", \"level\") VALUES (1, 2)", 5, true⟩ :
        QueryEvent).err = true ∧
    afterQuery (NewDBLogger "debug")
      ⟨"INSERT INTO \"logs\" (\"timestamp\", \"level\") VALUES (1, 2)", 5, true⟩ = none :=
  ⟨rfl, by rfl⟩

/-- C2 amended: for every observed errored call whose statement does not
contain the quoted `logs` table reference, `AfterQuery` emits an error-level
entry regardless of the configured verbosity value. -/
theorem c2_error_always_logged (lvl : String) (ev : QueryEvent)
    (he : ev.err = true) (hq : strContains ev.query "\"logs\"" = false) :
    ∃ e, afterQuery (NewDBLogger lvl) ev = some e ∧ e.level = "error" := by
  refine ⟨⟨"error", getOperationType ev.query, ev.durationMs,
    some (cleanQueryString ev.query)⟩, ?_, rfl⟩
  unfold afterQuery
  rw [hq, he]
  simp

theorem c2_error_always_logged_witness :
    ∃ e, afterQuery (NewDBLogger "silent")
      ⟨"UPDATE t SET x = 1 WHERE y = 2", 3, true⟩ = some e ∧ e.level = "error" :=
  c2_error_always_logged "silent" ⟨"UPDATE t SET x = 1 WHERE y = 2", 3, true⟩ rfl rfl

/-- C3 counterexample: a non-errored `SELECT` on the quoted `logs` table at
`"debug"` verbosity is an observed non-error call under debug verbosity, yet
it is not logged (the logs-table exclusion precedes the verbosity switch). -/
theorem c3_nonerror_filter_counterexample :
    (⟨"SELECT * FROM \"logs\" WHERE level = 1", 500, false⟩ : QueryEvent).err = false ∧
    afterQuery (NewDBLogger "debug")
      ⟨"SELECT * FROM \"logs\" WHERE level = 1", 500, false⟩ = none :=
  ⟨rfl, by rfl⟩

/-- C3 amended: for every observed non-error call whose statement does not
contain the quoted `logs` reference, debug verbosity logs it, and info
verbosity logs it exactly when its leading-keyword classification is
`CREATE`, `ALTER` or `DROP`, or its elapsed duration exceeds 100 ms. -/
theorem c3_nonerror_filter (ev : QueryEvent)
    (he : ev.err = false) (hq : strContains ev.query "\"logs\"" = false) :
    (∃ e, afterQuery (NewDBLogger "debug") ev = some e ∧ e.level = "debug") ∧
    ((∃ e, afterQuery (NewDBLogger "info") ev = some e) ↔
      (getOperationType ev.query ∈ (["CREATE", "ALTER", "DROP"] : List String) ∨
        ev.durationMs > 100)) := by
  constructor
  · refine ⟨⟨"debug", getOperationType ev.query, ev.durationMs,
      some (cleanQueryString ev.query)⟩, ?_, rfl⟩
    unfold afterQuery
    rw [hq, he]
    simp [NewDBLogger, goLowerStr]
  · unfold afterQuery
    rw [hq, he]
    have hschema : isSchemaOperation (getOperationType ev.query) = true ↔
        getOperationType ev.query ∈ (["CREATE", "ALTER", "DROP"] : List String) := by
      generalize getOperationType ev.query = s
      simp [isSchemaOperation, or_assoc]
    constructor
    · intro h
      simp only [NewDBLogger, goLowerStr] at h
      by_cases hs : isSchemaOperation (getOperationType ev.query) = true
      · exact Or.inl (hschema.mp hs)
      · by_cases hd : ev.durationMs > 100
        · exact Or.inr hd
        · simp [hs, hd] at h
    · intro h
      have : isSchemaOperation (getOperationType ev.query) || ev.durationMs > 100 := by
        rcases h with h | h
        · simp [hschema.mpr h]
        · simp [h]
      simp [NewDBLogger, goLowerStr, this]

theorem c3_nonerror_filter_witness :
    afterQuery (NewDBLogger "info") ⟨"SELECT * FROM quotes WHERE i = 1", 40, false⟩ = none ∧
    (∃ e, afterQuery (NewDBLogger "info") ⟨"CREATE TABLE t (x int)", 1, false⟩ = some e) ∧
    (∃ e, afterQuery (NewDBLogger "debug")
      ⟨"SELECT * FROM quotes WHERE i = 1", 40, false⟩ = some e ∧ e.level = "debug") := by
  refine ⟨by rfl,
    (c3_nonerror_filter ⟨"CREATE TABLE t (x int)", 1, false⟩ rfl rfl).2.mpr
      (Or.inl (by decide)),
    (c3_nonerror_filter ⟨"SELECT * FROM quotes WHERE i = 1", 40, false⟩ rfl rfl).1⟩

/-- C4: for every database call whose statement contains the quoted `logs`
table reference (as the persistent sink's own inserts do), `AfterQuery`
emits nothing, at every configured verbosity and whether or not the call
errored. -/
theorem c4_logs_table_excluded (h : DBLogger) (ev : QueryEvent)
    (hq : strContains ev.query "\"logs\"" = true) :
    afterQuery h ev = none := by
  unfold afterQuery
  rw [hq]
  simp

theorem c4_logs_table_excluded_witness :
    strContains "INSERT INTO \"logs\" (\"timestamp\", \"level\", \"message\", \"module\", \"data\") VALUES (1, 2, 3, 4, 5)" "\"logs\"" = true ∧
    afterQuery (NewDBLogger "debug")
      ⟨"INSERT INTO \"logs\" (\"timestamp\", \"level\", \"message\", \"module\", \"data\") VALUES (1, 2, 3, 4, 5)", 2, false⟩ = none :=
  ⟨rfl, c4_logs_table_excluded (NewDBLogger "debug") _ rfl⟩

/-- C10 counterexample: the configured verbosity `"DEBUG"` is a value other
than `"debug"` and `"info"`, yet a non-error call is logged, because
`NewDBLogger` lower-cases the configured value before storing it. -/
theorem c10_other_levels_silent_counterexample :
    ("DEBUG" ≠ "debug" ∧ "DEBUG" ≠ "info") ∧
    (afterQuery (NewDBLogger "DEBUG") ⟨"SELECT 1", 1, false⟩).isSome = true := by
  refine ⟨⟨?_, ?_⟩, ?_⟩
  · decide
  · decide
  · rfl

/-- C10 amended: for every observed non-error call, if the lower-casing of
the configured verbosity is neither `"debug"` nor `"info"`, the hook emits
no entry. -/
theorem c10_other_levels_silent (lvl : String) (ev : QueryEvent)
    (he : ev.err = false)
    (h1 : goLowerStr lvl ≠ "debug") (h2 : goLowerStr lvl ≠ "info") :
    afterQuery (NewDBLogger lvl) ev = none := by
  unfold afterQuery
  by_cases hq : strContains ev.query "\"logs\"" = true
  · simp [hq]
  · simp [hq, he, NewDBLogger, h1, h2]

theorem c10_other_levels_silent_witness :
    afterQuery (NewDBLogger "warn") ⟨"SELECT 1", 500, false⟩ = none :=
  c10_other_levels_silent "warn" ⟨"SELECT 1", 500, false⟩ rfl (by decide) (by decide)

/-- C5: `DBWriter.Write` returns `(len p, no error)` exactly when the buffer
parses and the insert succeeds; a parse failure returns zero bytes and the
parse error with no insert attempted and nothing on stderr; an insert
failure returns zero bytes and the insert error after a stderr diagnostic. -/
theorem c5_write_return_contract (now : Nat) (insertOk : Bool) (p : Buffer) :
    (((DBWriter.Write now insertOk p).n = p.len ∧
        (DBWriter.Write now insertOk p).err = none) ↔
      ((p.parse).isSome ∧ insertOk = true)) ∧
    (p.parse = none →
      (DBWriter.Write now insertOk p).n = 0 ∧
      (DBWriter.Write now insertOk p).err = some WriteErr.parseErr ∧
      (DBWriter.Write now insertOk p).dbAttempted = false ∧
      (DBWriter.Write now insertOk p).stderrDiag = false) ∧
    ((p.parse).isSome → insertOk = false →
      (DBWriter.Write now insertOk p).n = 0 ∧
      (DBWriter.Write now insertOk p).err = some WriteErr.insertErr ∧
      (DBWriter.Write now insertOk p).stderrDiag = true) := by
  unfold DBWriter.Write
  cases hp : p.parse with
  | none =>
    refine ⟨⟨fun h => absurd h.2 (by simp), fun h => by simp at h⟩, fun _ => by simp,
      fun h => by simp at h⟩
  | some ev =>
    cases insertOk with
    | true => exact ⟨⟨fun _ => ⟨rfl, rfl⟩, fun _ => ⟨rfl, rfl⟩⟩, fun h => by simp at h,
        fun _ h => by simp at h⟩
    | false =>
      refine ⟨⟨fun h => absurd h.2 (by simp), fun h => by simp at h⟩,
        fun h => by simp at h, fun _ _ => ⟨rfl, rfl, rfl⟩⟩

theorem c5_write_return_contract_witness :
    ((DBWriter.Write 1 true bufBad).dbAttempted = false ∧
      (DBWriter.Write 1 true bufBad).err = some WriteErr.parseErr) ∧
    ((DBWriter.Write 2 false bufGood).stderrDiag = true ∧
      (DBWriter.Write 2 false bufGood).err = some WriteErr.insertErr) ∧
    ((DBWriter.Write 3 true bufGood).n = 17 ∧
      (DBWriter.Write 3 true bufGood).err = none) :=
  ⟨⟨((c5_write_return_contract 1 true bufBad).2.1 rfl).2.2.1,
    ((c5_write_return_contract 1 true bufBad).2.1 rfl).2.1⟩,
   ⟨((c5_write_return_contract 2 false bufGood).2.2 rfl rfl).2.2,
    ((c5_write_return_contract 2 false bufGood).2.2 rfl rfl).2.1⟩,
   (c5_write_return_contract 3 true bufGood).1.mpr ⟨rfl, rfl⟩⟩

/-- C6: for every parsed event, the persisted row's `level` and `message` are
the `%v` text coercion of the event's fields, an absent field rendering as
the `<nil>` placeholder; `module` equals the event's `module` field exactly
when that field is present with a text value, and is empty otherwise
(including when `module` is present but non-text). -/
theorem c6_field_extraction (now : Nat) (p : Buffer) (row : APILog)
    (h : (DBWriter.Write now true p).persisted = some row) :
    ∃ ev, p.parse = some ev ∧
      row.level = fmtV (Event.get ev "level") ∧
      row.message = fmtV (Event.get ev "message") ∧
      (Event.get ev "level" = none → row.level = "<nil>") ∧
      (Event.get ev "message" = none → row.message = "<nil>") ∧
      (∀ m, Event.get ev "module" = some (JVal.str m) → row.module = m) ∧
      ((∀ m, Event.get ev "module" ≠ some (JVal.str m)) → row.module = "") := by
  unfold DBWriter.Write at h
  cases hp : p.parse with
  | none => rw [hp] at h; simp at h
  | some ev =>
    rw [hp] at h
    simp at h
    refine ⟨ev, rfl, by rw [← h], by rw [← h], ?_, ?_, ?_, ?_⟩
    · intro hl; rw [← h]; simp [hl, fmtV]
    · intro hm; rw [← h]; simp [hm, fmtV]
    · intro m hm; rw [← h]; simp [hm]
    · intro hm
      rw [← h]
      show (match Event.get ev "module" with | some (JVal.str m) => m | _ => "") = ""
      cases hg : Event.get ev "module" with
      | none => rfl
      | some v =>
        cases v with
        | str m => exact absurd hg (hm m)
        | null => rfl
        | bool b => rfl
        | num n => rfl
        | arr xs => rfl
        | obj kvs => rfl

theorem c6_field_extraction_witness :
    (DBWriter.Write 9 true bufC6).persisted = some rowC6 ∧
    (∃ ev, bufC6.parse = some ev ∧
      rowC6.level = fmtV (Event.get ev "level") ∧
      rowC6.message = fmtV (Event.get ev "message") ∧
      (Event.get ev "level" = none → rowC6.level = "<nil>") ∧
      (Event.get ev "message" = none → rowC6.message = "<nil>") ∧
      (∀ m, Event.get ev "module" = some (JVal.str m) → rowC6.module = m) ∧
      ((∀ m, Event.get ev "module" ≠ some (JVal.str m)) → rowC6.module = "")) :=
  ⟨rfl, c6_field_extraction 9 bufC6 rowC6 rfl⟩

theorem digitChar_inj (a b : Nat) (ha : a < 10) (hb : b < 10)
    (h : Nat.digitChar a = Nat.digitChar b) : a = b := by
  interval_cases a <;> interval_cases b <;> simp_all [Nat.digitChar]

theorem dateStamp_inj (d1 d2 : GoDate)
    (hy1 : d1.year < 10000) (hm1 : d1.month < 100) (hd1 : d1.day < 100)
    (hy2 : d2.year < 10000) (hm2 : d2.month < 100) (hd2 : d2.day < 100)
    (h : dateStamp d1 = dateStamp d2) : d1 = d2 := by
  simp only [dateStamp, year4, num2, List.cons_append, List.nil_append,
    List.cons.injEq, List.nil_eq] at h
  obtain ⟨e1, e2, e3, e4, -, e5, e6, -, e7, e8, -⟩ := h
  have y1 := digitChar_inj _ _ (Nat.mod_lt _ (by omega)) (Nat.mod_lt _ (by omega)) e1
  have y2 := digitChar_inj _ _ (Nat.mod_lt _ (by omega)) (Nat.mod_lt _ (by omega)) e2
  have y3 := digitChar_inj _ _ (Nat.mod_lt _ (by omega)) (Nat.mod_lt _ (by omega)) e3
  have y4 := digitChar_inj _ _ (Nat.mod_lt _ (by omega)) (Nat.mod_lt _ (by omega)) e4
  have m1 := digitChar_inj _ _ (Nat.mod_lt _ (by omega)) (Nat.mod_lt _ (by omega)) e5
  have m2 := digitChar_inj _ _ (Nat.mod_lt _ (by omega)) (Nat.mod_lt _ (by omega)) e6
  have da1 := digitChar_inj _ _ (Nat.mod_lt _ (by omega)) (Nat.mod_lt _ (by omega)) e7
  have da2 := digitChar_inj _ _ (Nat.mod_lt _ (by omega)) (Nat.mod_lt _ (by omega)) e8
  obtain ⟨a1, b1, c1⟩ := d1
  obtain ⟨a2, b2, c2⟩ := d2
  simp only at y1 y2 y3 y4 m1 m2 da1 da2 hy1 hm1 hd1 hy2 hm2 hd2
  simp only [GoDate.mk.injEq]
  omega

/-- C8: the daily log file is named `moneybotsapi-<YYYY-MM-DD>.log` for the
current local calendar date, and two emissions on different calendar days
target differently named files. -/
theorem c8_daily_file_naming (d1 d2 : GoDate)
    (hy1 : d1.year < 10000) (hm1 : d1.month ≤ 12) (hd1 : d1.day ≤ 31)
    (hy2 : d2.year < 10000) (hm2 : d2.month ≤ 12) (hd2 : d2.day ≤ 31)
    (hne : d1 ≠ d2) :
    logFileName d1 =
      String.mk ("moneybotsapi-".data ++ dateStamp d1 ++ ".log".data) ∧
    logFileName d1 ≠ logFileName d2 := by
  refine ⟨rfl, fun hcontra => hne ?_⟩
  apply dateStamp_inj d1 d2 hy1 (by omega) (by omega) hy2 (by omega) (by omega)
  have h := congrArg String.data hcontra
  simp only [logFileName] at h
  rw [List.append_assoc, List.append_assoc] at h
  have h2 := List.append_cancel_left h
  exact List.append_cancel_right h2

theorem c8_daily_file_naming_witness :
    logFileName ⟨2024, 1, 15⟩ ≠ logFileName ⟨2024, 1, 16⟩ ∧
    logFileName ⟨2024, 1, 15⟩ = "moneybotsapi-2024-01-15.log" :=
  ⟨(c8_daily_file_naming ⟨2024, 1, 15⟩ ⟨2024, 1, 16⟩ (by decide) (by decide) (by decide)
      (by decide) (by decide) (by decide) (by decide)).2,
   by rfl⟩

/-- C9: from any instant `t`, the rotation task sleeps exactly until the
next local midnight strictly after `t` (a positive duration of at most 24
hours: the first multiple of 86400 s above `t`), and iterating the loop
rotates at that midnight and then at every following midnight, forever. -/
theorem c9_rotation_sleep (t : Nat) :
    0 < rotateSleep t ∧
    rotateSleep t ≤ secPerDay ∧
    (t + rotateSleep t) % secPerDay = 0 ∧
    (∀ n, rotateClock t (n + 1) = rotateClock t n + rotateSleep (rotateClock t n) ∧
      rotateClock t n < rotateClock t (n + 1) ∧
      rotateClock t (n + 1) % secPerDay = 0) ∧
    (∀ u, t < u → u % secPerDay = 0 → t + rotateSleep t ≤ u) := by
  have hpos : ∀ s : Nat, 0 < rotateSleep s := by
    intro s; simp only [rotateSleep, secPerDay]; omega
  refine ⟨hpos t, ?_, ?_, ?_, ?_⟩
  · simp only [rotateSleep, secPerDay]; omega
  · simp only [rotateSleep, secPerDay]; omega
  · intro n
    refine ⟨rfl, by have := hpos (rotateClock t n); simp [rotateClock]; omega, ?_⟩
    show (rotateClock t n + rotateSleep (rotateClock t n)) % secPerDay = 0
    simp only [rotateSleep, secPerDay]; omega
  · intro u hu hmid
    simp only [rotateSleep, secPerDay] at *; omega

theorem c9_rotation_sleep_witness :
    (100 : Nat) + rotateSleep 100 ≤ 86400 ∧ rotateSleep 100 = 86300 :=
  ⟨(c9_rotation_sleep 100).2.2.2.2 86400 (by decide) (by decide), by rfl⟩

theorem goFieldsAux_wordOk : ∀ (cs cur : List Char),
    (∀ c ∈ cur, goIsSpace c = false) →
    ∀ w ∈ goFieldsAux cs cur, w ≠ [] ∧ ∀ c ∈ w, goIsSpace c = false := by
  intro cs
  induction cs with
  | nil =>
    intro cur hcur w hw
    by_cases h : cur = []
    · simp [goFieldsAux, h] at hw
    · simp only [goFieldsAux, if_neg h, List.mem_singleton] at hw
      subst hw
      refine ⟨by simpa using h, ?_⟩
      intro c hc
      exact hcur c (List.mem_reverse.mp hc)
  | cons c rest ih =>
    intro cur hcur w hw
    simp only [goFieldsAux] at hw
    by_cases hs : goIsSpace c = true
    · rw [if_pos hs] at hw
      by_cases hc : cur = []
      · rw [if_pos hc] at hw
        exact ih [] (by simp) w hw
      · rw [if_neg hc] at hw
        rcases List.mem_cons.mp hw with rfl | hw2
        · exact ⟨by simpa using hc, fun x hx => hcur x (List.mem_reverse.mp hx)⟩
        · exact ih [] (by simp) w hw2
    · rw [if_neg hs] at hw
      refine ih (c :: cur) ?_ w hw
      intro x hx
      rcases List.mem_cons.mp hx with rfl | hx2
      · simpa using hs
      · exact hcur x hx2

theorem noTwoSpaces_of_nonspace : ∀ w : List Char,
    (∀ c ∈ w, goIsSpace c = false) → noTwoSpaces w = true := by
  intro w
  induction w with
  | nil => intro; rfl
  | cons a t ih =>
    intro hw
    cases t with
    | nil => rfl
    | cons b t2 =>
      have ha := hw a (by simp)
      have hrest := ih (fun c hc => hw c (by simp [hc]))
      simp [noTwoSpaces, ha, hrest]

theorem noTwoSpaces_append_word : ∀ (w : List Char), ∀ t : List Char,
    (∀ c ∈ w, goIsSpace c = false) →
    noTwoSpaces t = true → headNotSpace t = true →
    noTwoSpaces (w ++ ' ' :: t) = true := by
  intro w
  induction w with
  | nil =>
    intro t _ ht hh
    simp only [List.nil_append]
    cases t with
    | nil => rfl
    | cons b t2 =>
      have hb : goIsSpace b = false := by simpa [headNotSpace] using hh
      simp [noTwoSpaces, hb, ht]
  | cons a w2 ih =>
    intro t hw ht hh
    have ha : goIsSpace a = false := hw a (by simp)
    have ih2 := ih t (fun c hc => hw c (by simp [hc])) ht hh
    cases w2 with
    | nil =>
      simp only [List.cons_append, List.nil_append] at ih2 ⊢
      simp [noTwoSpaces, ha]
      simpa using ih2
    | cons b w3 =>
      have hb : goIsSpace b = false := hw b (by simp)
      simp only [List.cons_append] at ih2 ⊢
      simp [noTwoSpaces, ha]
      simpa using ih2

theorem headNotSpace_append_word (w t : List Char) (hne : w ≠ [])
    (hw : ∀ c ∈ w, goIsSpace c = false) :
    headNotSpace (w ++ t) = true := by
  cases w with
  | nil => exact absurd rfl hne
  | cons a w2 => simpa [headNotSpace] using hw a (by simp)

theorem joinWords_clean : ∀ ws : List (List Char),
    (∀ w ∈ ws, w ≠ [] ∧ ∀ c ∈ w, goIsSpace c = false) →
    noTwoSpaces (joinWords ws) = true ∧ headNotSpace (joinWords ws) = true := by
  intro ws
  induction ws with
  | nil => intro; exact ⟨rfl, rfl⟩
  | cons w ws2 ih =>
    intro h
    obtain ⟨hne, hns⟩ := h w (by simp)
    cases ws2 with
    | nil =>
      refine ⟨noTwoSpaces_of_nonspace w hns, ?_⟩
      cases w with
      | nil => exact absurd rfl hne
      | cons a w2 =>
        show headNotSpace (a :: w2) = true
        simpa [headNotSpace] using hns a (by simp)
    | cons w2 ws3 =>
      have ih2 := ih (fun x hx => h x (by simp [hx]))
      refine ⟨?_, ?_⟩
      · show noTwoSpaces (w ++ ' ' :: joinWords (w2 :: ws3)) = true
        exact noTwoSpaces_append_word w _ hns ih2.1 ih2.2
      · show headNotSpace (w ++ ' ' :: joinWords (w2 :: ws3)) = true
        exact headNotSpace_append_word w _ hne hns

theorem cleanQueryString_normalized (q : String) :
    noTwoSpaces (cleanQueryString q).data = true ∧
    headNotSpace (cleanQueryString q).data = true :=
  joinWords_clean (goFields (dropQuoted q.data))
    (fun w hw => goFieldsAux_wordOk (dropQuoted q.data) [] (by simp) w hw)

theorem getOperationType_spec (q : String) :
    (getOperationType q ∈ sqlKeywords ∧
      isPrefixL (getOperationType q).data (goTrimSpace (goUpper q.data)) = true) ∨
    (getOperationType q = "UNKNOWN" ∧
      ∀ kw ∈ sqlKeywords, isPrefixL kw.data (goTrimSpace (goUpper q.data)) = false) := by
  simp only [getOperationType]
  cases hf : sqlKeywords.find? (fun op => isPrefixL op.data (goTrimSpace (goUpper q.data))) with
  | none =>
    refine Or.inr ⟨rfl, fun kw hkw => ?_⟩
    have := List.find?_eq_none.mp hf kw hkw
    simpa using this
  | some op =>
    refine Or.inl ⟨?_, ?_⟩
    · show op ∈ sqlKeywords
      exact List.mem_of_find?_eq_some hf
    · show isPrefixL op.data (goTrimSpace (goUpper q.data)) = true
      exact List.find?_some
        (p := fun (kw : String) => isPrefixL kw.data (goTrimSpace (goUpper q.data))) hf

theorem afterQuery_inv (h : DBLogger) (ev : QueryEvent) (e : LoggedEntry)
    (hlog : afterQuery h ev = some e) :
    e.operation = getOperationType ev.query ∧
    (e.query = none ∨ e.query = some (cleanQueryString ev.query)) := by
  unfold afterQuery at hlog
  by_cases hq : strContains ev.query "\"logs\"" = true
  · rw [hq] at hlog; simp at hlog
  · replace hq : strContains ev.query "\"logs\"" = false := by simpa using hq
    rw [hq] at hlog
    by_cases herr : ev.err = true
    · rw [herr] at hlog
      simp only [Bool.false_eq_true, if_false, if_true] at hlog
      simp only [Option.some.injEq] at hlog
      rw [← hlog]
      exact ⟨rfl, Or.inr rfl⟩
    · replace herr : ev.err = false := by simpa using herr
      rw [herr] at hlog
      by_cases hdb : h.logLevel = "debug"
      · simp only [Bool.false_eq_true, if_false, if_pos hdb, Option.some.injEq] at hlog
        rw [← hlog]
        exact ⟨rfl, Or.inr rfl⟩
      · by_cases hinfo : h.logLevel = "info"
        · simp only [Bool.false_eq_true, if_false, if_neg hdb, if_pos hinfo] at hlog
          by_cases hcond : (isSchemaOperation (getOperationType ev.query) ||
              decide (ev.durationMs > 100)) = true
          · rw [if_pos hcond] at hlog
            simp only [Option.some.injEq] at hlog
            rw [← hlog]
            exact ⟨rfl, Or.inl rfl⟩
          · rw [if_neg hcond] at hlog
            simp at hlog
        · simp only [Bool.false_eq_true, if_false, if_neg hdb, if_neg hinfo] at hlog
          simp at hlog

/-- C7 counterexample: on the errored call `TRUNCATE "a  b` (no `logs`
reference) the hook logs the tag `"UNKNOWN"`, not the literal `"unknown"`,
and logs statement text that still contains a double-quote character (the
regex only removes quote pairs around non-empty quote-free runs, and the
whitespace pass also trims), so it differs from the claim's
quote-stripped-and-collapsed text. -/
theorem c7_operation_and_text_counterexample :
    afterQuery (NewDBLogger "debug") ⟨"TRUNCATE \"a  b", 1, true⟩ =
      some ⟨"error", "UNKNOWN", 1, some "TRUNCATE \"a b"⟩ ∧
    ("UNKNOWN" : String) ≠ "unknown" ∧
    String.mk (collapseSpacesSpec (stripQuotesSpec ("TRUNCATE \"a  b" : String).data)) =
      "TRUNCATE a b" ∧
    ("TRUNCATE \"a b" : String) ≠ "TRUNCATE a b" := by
  refine ⟨by rfl, by decide, by rfl, by decide⟩

/-- C7 amended: for every call the hook logs, the logged operation tag is
the statement's leading keyword among
SELECT/INSERT/UPDATE/DELETE/CREATE/ALTER/DROP/SET matched after upper-casing
and trimming, and is the literal `"UNKNOWN"` when no keyword matches; where
the entry carries statement text, that text is the statement with each
leftmost double-quote pair enclosing one or more non-quote characters
replaced by its contents, split on whitespace and re-joined with single
spaces — in particular it has no two adjacent whitespace characters and does
not begin with whitespace. -/
theorem c7_operation_and_text (h : DBLogger) (ev : QueryEvent) (e : LoggedEntry)
    (hlog : afterQuery h ev = some e) :
    e.operation = getOperationType ev.query ∧
    ((e.operation ∈ sqlKeywords ∧
        isPrefixL (e.operation).data (goTrimSpace (goUpper ev.query.data)) = true) ∨
      (e.operation = "UNKNOWN" ∧
        ∀ kw ∈ sqlKeywords, isPrefixL kw.data (goTrimSpace (goUpper ev.query.data)) = false)) ∧
    (∀ t, e.query = some t → t = cleanQueryString ev.query ∧
      noTwoSpaces t.data = true ∧ headNotSpace t.data = true) := by
  obtain ⟨hopeq, hqopt⟩ := afterQuery_inv h ev e hlog
  refine ⟨hopeq, ?_, ?_⟩
  · rw [hopeq]; exact getOperationType_spec ev.query
  · intro t ht
    rcases hqopt with hnone | hsome
    · rw [hnone] at ht; cases ht
    · rw [hsome] at ht
      obtain rfl : cleanQueryString ev.query = t := by
        simpa using ht
      exact ⟨rfl, (cleanQueryString_normalized ev.query).1,
        (cleanQueryString_normalized ev.query).2⟩

theorem c7_operation_and_text_witness :
    ("SELECT" : String) = getOperationType "SELECT  \"name\" FROM \"users\"" ∧
    ("SELECT name FROM users" : String) = cleanQueryString "SELECT  \"name\" FROM \"users\"" ∧
    noTwoSpaces ("SELECT name FROM users" : String).data = true :=
  have h := c7_operation_and_text (NewDBLogger "debug")
    ⟨"SELECT  \"name\" FROM \"users\"", 3, false⟩
    ⟨"debug", "SELECT", 3, some "SELECT name FROM users"⟩ (by rfl)
  ⟨h.1, (h.2.2 "SELECT name FROM users" rfl).1.symm, (h.2.2 "SELECT name FROM users" rfl).2.1⟩

end Moneybots
